import Mathlib

/-!
Verification of the geometric/numeric core of the STEM_atomap_GUI repository.

The development shallowly embeds the core routines of `src/core/lattice.py`,
`src/core/metrics.py`, `src/core/viz_utils.py`, `src/core/stats.py` and the
separation-resolution step of `src/core/pipeline.py`.  Pixel coordinates and
intermediate arithmetic are modelled over `ℚ` where the Python code works with
exact-in-spirit float arithmetic on coordinates, and over `ℝ` where genuinely
irrational quantities (square roots, angles, π) appear.  External numerical
libraries (scipy's KD-tree, Qhull, `griddata`, numpy's FFT) are embedded by
their documented input/output semantics at the exact call boundary used by the
repository code, as noted on each definition.
-/

/-- A 2D point `(x, y)` in pixel space, the element type of a `PointSet`. -/
abbrev Point : Type := ℚ × ℚ

/-- Squared Euclidean distance between two points.  Comparisons of Euclidean
distances in the source (`cKDTree.query`) are equivalent to comparisons of
squared distances, which stay inside `ℚ`. -/
def dist2 (p q : Point) : ℚ :=
  (p.1 - q.1) ^ 2 + (p.2 - q.2) ^ 2

/-- Nearest point to `p` among `q0 :: rest`, keeping the earlier candidate on
ties.  This is the semantics of `scipy.spatial.cKDTree(ideal).query(r, k=1)`
used in `compute_b_displacements` (src/core/lattice.py line 116-117): an exact
single-nearest-neighbour search over the ideal point set. -/
def nearestInAux (p q0 : Point) : List Point → Point
  | [] => q0
  | q :: rest =>
    if dist2 p q < dist2 p q0 then nearestInAux p q rest else nearestInAux p q0 rest

/-- Embedding of `compute_b_displacements` (src/core/lattice.py lines 109-120):
build a KD-tree over `ideal`, match every refined point to its nearest ideal
point, and return the per-point differences `refined - matched` split into the
x components `dx` and y components `dy`, in the order of `refined`.  Querying
an empty KD-tree is a precondition violation in scipy (the subsequent indexing
fails), embedded as `none`. -/
def compute_b_displacements (refined ideal : List Point) :
    Option (List ℚ × List ℚ) :=
  match ideal with
  | [] => none
  | i0 :: irest =>
    let deltas := refined.map (fun r =>
      let m := nearestInAux r i0 irest
      (r.1 - m.1, r.2 - m.2))
    some (deltas.map Prod.fst, deltas.map Prod.snd)

/-- Lexicographic order on points (x first, then y), used to sort the input
of the monotone-chain convex hull construction. -/
def ptLE (p q : Point) : Bool :=
  decide (p.1 < q.1) || (decide (p.1 = q.1) && decide (p.2 ≤ q.2))

def insertPt (p : Point) : List Point → List Point
  | [] => [p]
  | q :: rest => if ptLE p q then p :: q :: rest else q :: insertPt p rest

/-- Insertion sort of a point list by `ptLE`. -/
def sortPts : List Point → List Point
  | [] => []
  | p :: rest => insertPt p (sortPts rest)

/-- Cross product `(a - o) × (b - o)`; positive exactly when the turn
`o → a → b` is counter-clockwise. -/
def cross (o a b : Point) : ℚ :=
  (a.1 - o.1) * (b.2 - o.2) - (a.2 - o.2) * (b.1 - o.1)

/-- One step of the monotone-chain hull construction: push `p` onto the chain
`acc` (kept in reverse order), popping chain points that fail to make a strict
counter-clockwise turn. -/
def chainPush (p : Point) : List Point → List Point
  | [] => [p]
  | a :: rest =>
    match rest with
    | [] => [p, a]
    | b :: _ =>
      if cross b a p ≤ 0 then chainPush p rest else p :: a :: rest

/-- Semantics of `scipy.spatial.ConvexHull(points)` as used by
`create_convex_hull_mask` (src/core/viz_utils.py lines 213-219): the list
`points[hull.vertices]` of convex-hull vertices in counter-clockwise order,
computed here with Andrew's monotone chain.  Qhull raises `QhullError` on
degenerate input (for example all points collinear); that failure is embedded
as `none`, which the caller turns into the permissive all-valid mask. -/
def convexHullVerts (pts : List Point) : Option (List Point) :=
  let s := sortPts pts
  let lower := (s.foldl (fun acc p => chainPush p acc) []).reverse
  let upper := (s.reverse.foldl (fun acc p => chainPush p acc) []).reverse
  let hull := lower.dropLast ++ upper.dropLast
  if hull.length < 3 then none else some hull

/-- Embedding of `np.mean(hull_points, axis=0)` (src/core/viz_utils.py line
223): the centroid of a vertex list. -/
def centroidPt (vs : List Point) : Point :=
  ((vs.map Prod.fst).sum / vs.length, (vs.map Prod.snd).sum / vs.length)

/-- The hull-vertex shrink of src/core/viz_utils.py line 224:
`centroid + (1 - shrink_margin) * (vertex - centroid)`, applied
componentwise. -/
def shrinkToward (c : Point) (m : ℚ) (v : Point) : Point :=
  (c.1 + (1 - m) * (v.1 - c.1), c.2 + (1 - m) * (v.2 - c.2))

/-- Embedding of `np.linspace(a, b, n)`: `n` evenly spaced samples from `a`
to `b`, both endpoints included. -/
def linspace (a b : ℚ) (n : ℕ) : List ℚ :=
  (List.range n).map (fun (i : ℕ) => a + (b - a) * (i : ℚ) / ((n : ℚ) - 1))

/-- Membership of `p` in the convex hull of the counter-clockwise vertex list
`vs`: `p` lies on the left of (or on) every directed edge.  This is the
semantics of `scipy.spatial.Delaunay(vs).find_simplex(p) >= 0`
(src/core/viz_utils.py lines 236-237) for a vertex list in convex position and
counter-clockwise order, as produced by `convexHullVerts` and preserved by
`shrinkToward` with factor `1 - m ≥ 0`.  When all vertices coincide (a fully
degenerate shrink, `m = 1`) every edge test is `0 ≤ 0`, so the result is
`true` everywhere — the same all-valid outcome as the `except` fallback that
catches the `Delaunay` failure on coincident points. -/
def insideConvexPoly (vs : List Point) (p : Point) : Bool :=
  (List.range vs.length).all (fun i =>
    decide (0 ≤ cross (vs.getD i (0, 0)) (vs.getD ((i + 1) % vs.length) (0, 0)) p))

/-- Default value of the `shrink_margin` parameter of `create_convex_hull_mask`
(src/core/viz_utils.py line 189): `0.05`, a 5% shrink. -/
def shrink_margin_default : ℚ := 5 / 100

/-- The permissive all-valid mask returned on the degenerate branches of
`create_convex_hull_mask`. -/
def allTrueMask (rows cols : ℕ) : List (List Bool) :=
  List.replicate rows (List.replicate cols true)

/-- Embedding of `create_convex_hull_mask` (src/core/viz_utils.py lines
185-242).  The grid extent tuple `(x_min, x_max, y_min, y_max)` and the shape
tuple `(rows, cols)` are passed as separate arguments.  Entry `[r][c]` of the
result corresponds to the grid point `(x_coords[c], y_coords[r])` exactly as
in the source (`np.meshgrid` + `ravel` + `reshape(grid_shape)`).  The two
`except` fallbacks of the source (fewer than 4 points, degenerate hull or
triangulation) return the all-valid mask instead of raising. -/
def create_convex_hull_mask (points : List Point) (rows cols : ℕ)
    (x_min x_max y_min y_max : ℚ) (shrink_margin : ℚ) : List (List Bool) :=
  if points.length < 4 then allTrueMask rows cols
  else
    match convexHullVerts points with
    | none => allTrueMask rows cols
    | some hull_points =>
      let hp := if 0 < shrink_margin
        then hull_points.map (shrinkToward (centroidPt hull_points) shrink_margin)
        else hull_points
      (linspace y_min y_max rows).map (fun y =>
        (linspace x_min x_max cols).map (fun x => insideConvexPoly hp (x, y)))

/-- The `create_convex_hull_mask` call made by `save_displacement_heatmap`
(src/core/viz.py lines 104-109): a 200×200 grid over `[0,w] × [0,h]` with the
explicit argument `shrink_margin=0.10`. -/
def heatmap_mask (points : List Point) (w h : ℚ) : List (List Bool) :=
  create_convex_hull_mask points 200 200 0 w 0 h (10 / 100)

/-- The square point set of the spec's convex-hull mask scenario. -/
def squarePts : List Point := [(0, 0), (10, 0), (10, 10), (0, 10)]

/-- A rational 2D grid, row index first. -/
abbrev Grid : Type := List (List ℚ)

/-- Embedding of `np.gradient` for a 1D array of samples with uniform spacing
`d`: one-sided differences at the two boundary samples, central differences in
the interior. -/
def npGradient1D (d : ℚ) (xs : List ℚ) : List ℚ :=
  (List.range xs.length).map (fun (i : ℕ) =>
    if i = 0 then (xs.getD 1 0 - xs.getD 0 0) / d
    else if i = xs.length - 1 then (xs.getD i 0 - xs.getD (i - 1) 0) / d
    else (xs.getD (i + 1) 0 - xs.getD (i - 1) 0) / (2 * d))

/-- First component of `np.gradient(g, d, _)` for a 2D array: the gradient
along axis 0. -/
def gradAxis0 (d : ℚ) (g : Grid) : Grid :=
  (g.transpose.map (npGradient1D d)).transpose

/-- Second component of `np.gradient(g, _, d)` for a 2D array: the gradient
along axis 1. -/
def gradAxis1 (d : ℚ) (g : Grid) : Grid :=
  g.map (npGradient1D d)

/-- Entrywise combination of two grids (numpy broadcast arithmetic). -/
def zipGrid (f : ℚ → ℚ → ℚ) (a b : Grid) : Grid :=
  List.zipWith (List.zipWith f) a b

/-- The 1% margin factor of `compute_strain_from_displacement`
(src/core/metrics.py line 82). -/
def strain_margin_factor : ℚ := 1 / 100

/-- Axis-0 sample positions of the interpolation grid of
`compute_strain_from_displacement` (src/core/metrics.py lines 83-86):
`np.mgrid[-0.01*w : w*1.01 : grid_size j]`, i.e. `grid_size` evenly spaced
samples from `-0.01*w` to `1.01*w` inclusive. -/
def strain_grid_xs (w : ℚ) (grid_size : ℕ) : List ℚ :=
  linspace (-strain_margin_factor * w) (w * (1 + strain_margin_factor)) grid_size

/-- Axis-1 sample positions of the interpolation grid, spanning
`[-0.01*h, 1.01*h]`. -/
def strain_grid_ys (h : ℚ) (grid_size : ℕ) : List ℚ :=
  linspace (-strain_margin_factor * h) (h * (1 + strain_margin_factor)) grid_size

/-- The nominal x spacing `dx_spacing = w / (grid_size - 1)` of
src/core/metrics.py line 101, passed to `np.gradient`. -/
def dx_spacing (w : ℚ) (grid_size : ℕ) : ℚ := w / ((grid_size : ℚ) - 1)

/-- The nominal y spacing `dy_spacing = h / (grid_size - 1)` of
src/core/metrics.py line 102, passed to `np.gradient`. -/
def dy_spacing (h : ℚ) (grid_size : ℕ) : ℚ := h / ((grid_size : ℚ) - 1)

/-- The `grid_x` array of the mgrid call: entry `[i][j] = xs[i]`. -/
def strain_grid_x (w : ℚ) (grid_size : ℕ) : Grid :=
  (strain_grid_xs w grid_size).map (fun x => List.replicate grid_size x)

/-- The `grid_y` array of the mgrid call: entry `[i][j] = ys[j]`. -/
def strain_grid_y (h : ℚ) (grid_size : ℕ) : Grid :=
  List.replicate grid_size (strain_grid_ys h grid_size)

/-- Keys of the dict returned by `compute_strain_from_displacement`
(src/core/metrics.py lines 116-127).  `mask` stands for the validity-mask
entry that the specification lists as part of the strain-field dict; it is
declared here so that its absence from the returned dict can be stated. -/
inductive StrainKey
  | exx | eyy | exy | rotation | rotation_deg | grid_x | grid_y
  | u_grid | v_grid | source_points | mask
deriving DecidableEq

/-- Values of the strain dict: rational grids, the real-valued degree grid
(`np.degrees` multiplies by the irrational `180/π`), point lists, or a boolean
mask grid (never produced by the strain function itself). -/
inductive StrainVal
  | qgrid (g : Grid)
  | rgrid (g : List (List ℝ))
  | pts (ps : List Point)
  | bgrid (g : List (List Bool))

/-- Embedding of `np.degrees` applied entrywise: `x ↦ x * 180 / π`. -/
noncomputable def degreesGrid (g : Grid) : List (List ℝ) :=
  g.map (fun row => row.map (fun q => (q : ℝ) * 180 / Real.pi))

/-- Embedding of `compute_strain_from_displacement` (src/core/metrics.py lines
49-127).  The scattered-to-grid interpolation (`scipy.interpolate.griddata`
with `method="linear"` and nearest-neighbour back-fill of NaN cells, lines
89-98) is an external library routine; its two outputs are taken as the
inputs `u_grid` and `v_grid`.  Everything from line 100 on — the nominal
spacings, the `np.gradient` calls, the strain-tensor components and the
returned dict — is embedded directly. -/
noncomputable def compute_strain_from_displacement (points : List Point)
    (u_grid v_grid : Grid) (h w : ℚ) (grid_size : ℕ) :
    List (StrainKey × StrainVal) :=
  let du_dx := gradAxis0 (dx_spacing w grid_size) u_grid
  let du_dy := gradAxis1 (dy_spacing h grid_size) u_grid
  let dv_dx := gradAxis0 (dx_spacing w grid_size) v_grid
  let dv_dy := gradAxis1 (dy_spacing h grid_size) v_grid
  let exx := du_dx
  let eyy := dv_dy
  let exy := zipGrid (fun a b => 1 / 2 * (a + b)) du_dy dv_dx
  let rotation := zipGrid (fun a b => 1 / 2 * (a - b)) dv_dx du_dy
  [(StrainKey.exx, StrainVal.qgrid exx),
   (StrainKey.eyy, StrainVal.qgrid eyy),
   (StrainKey.exy, StrainVal.qgrid exy),
   (StrainKey.rotation, StrainVal.qgrid rotation),
   (StrainKey.rotation_deg, StrainVal.rgrid (degreesGrid rotation)),
   (StrainKey.grid_x, StrainVal.qgrid (strain_grid_x w grid_size)),
   (StrainKey.grid_y, StrainVal.qgrid (strain_grid_y h grid_size)),
   (StrainKey.u_grid, StrainVal.qgrid u_grid),
   (StrainKey.v_grid, StrainVal.qgrid v_grid),
   (StrainKey.source_points, StrainVal.pts points)]

/-- Dictionary access by key for the strain dict. -/
def lookupStrain (k : StrainKey) : List (StrainKey × StrainVal) → Option StrainVal
  | [] => none
  | (k2, v) :: rest => if k = k2 then some v else lookupStrain k rest

/-- Keys of the dict returned by `compute_statistics` (src/core/stats.py lines
33-48).  `magnitude_median_nm` is the physical-unit median key that the claim
expects; it is declared here so that its absence from the returned dict can be
stated. -/
inductive StatKey
  | count | magnitude_mean | magnitude_std | magnitude_min | magnitude_max
  | magnitude_median | angle_mean_deg | angle_circular_std_deg
  | magnitude_mean_nm | magnitude_std_nm | magnitude_min_nm | magnitude_max_nm
  | magnitude_median_nm
deriving DecidableEq

/-- Embedding of `np.hypot`. -/
noncomputable def hypotR (a b : ℝ) : ℝ := Real.sqrt (a ^ 2 + b ^ 2)

/-- Embedding of `np.arctan2(y, x)`: the argument of the complex number
`x + y*i`, in `(-π, π]`. -/
noncomputable def arctan2 (y x : ℝ) : ℝ := Complex.arg ⟨x, y⟩

/-- Embedding of `np.degrees`. -/
noncomputable def toDegrees (r : ℝ) : ℝ := r * 180 / Real.pi

/-- Embedding of `np.mean` over a sample list (NaN on the empty list in numpy;
junk value `0/0 = 0` here, unused by the claims). -/
noncomputable def npMean (xs : List ℝ) : ℝ := xs.sum / xs.length

/-- Embedding of `np.std`: the population standard deviation. -/
noncomputable def npStd (xs : List ℝ) : ℝ :=
  Real.sqrt (npMean (xs.map (fun x => (x - npMean xs) ^ 2)))

/-- Embedding of `np.min` (numpy raises on an empty array; junk 0 here). -/
noncomputable def npMinL : List ℝ → ℝ
  | [] => 0
  | x :: rest => rest.foldl min x

/-- Embedding of `np.max` (numpy raises on an empty array; junk 0 here). -/
noncomputable def npMaxL : List ℝ → ℝ
  | [] => 0
  | x :: rest => rest.foldl max x

noncomputable def insertSortedR (x : ℝ) : List ℝ → List ℝ
  | [] => [x]
  | y :: rest => if x ≤ y then x :: y :: rest else y :: insertSortedR x rest

/-- Insertion sort of real samples, the sorting step inside `np.median`. -/
noncomputable def sortR : List ℝ → List ℝ
  | [] => []
  | x :: rest => insertSortedR x (sortR rest)

/-- Embedding of `np.median`: the middle element of the sorted samples, or
the average of the two middle elements for an even count. -/
noncomputable def npMedian (xs : List ℝ) : ℝ :=
  let s := sortR xs
  if xs.length % 2 = 1 then s.getD (xs.length / 2) 0
  else (s.getD (xs.length / 2 - 1) 0 + s.getD (xs.length / 2) 0) / 2

/-- The complex mean `np.mean(np.exp(1j * angles))` of src/core/stats.py
line 41. -/
noncomputable def meanExpAngles (angles : List ℝ) : ℂ :=
  (angles.map (fun a => Complex.exp (Complex.I * a))).sum / (angles.length : ℂ)

/-- Embedding of `compute_statistics` (src/core/stats.py lines 13-50): the
returned dict as an association list in insertion order.  The count entry
stores `len(magnitudes)` as a real number.  When `nm_per_pixel` is supplied,
the four physical-unit entries appended on lines 44-48 multiply the
already-computed pixel-unit values by the scale factor. -/
noncomputable def compute_statistics (dx dy : List ℝ) (nm_per_pixel : Option ℝ) :
    List (StatKey × ℝ) :=
  let magnitudes := List.zipWith hypotR dx dy
  let angles := List.zipWith (fun a b => arctan2 b a) dx dy
  let base : List (StatKey × ℝ) :=
    [(StatKey.count, (magnitudes.length : ℝ)),
     (StatKey.magnitude_mean, npMean magnitudes),
     (StatKey.magnitude_std, npStd magnitudes),
     (StatKey.magnitude_min, npMinL magnitudes),
     (StatKey.magnitude_max, npMaxL magnitudes),
     (StatKey.magnitude_median, npMedian magnitudes),
     (StatKey.angle_mean_deg, toDegrees (arctan2 (npMean dy) (npMean dx))),
     (StatKey.angle_circular_std_deg,
       toDegrees (Real.sqrt (-2 * Real.log (Complex.abs (meanExpAngles angles)))))]
  match nm_per_pixel with
  | none => base
  | some s => base ++
      [(StatKey.magnitude_mean_nm, npMean magnitudes * s),
       (StatKey.magnitude_std_nm, npStd magnitudes * s),
       (StatKey.magnitude_min_nm, npMinL magnitudes * s),
       (StatKey.magnitude_max_nm, npMaxL magnitudes * s)]

/-- Dictionary access by key for the statistics dict. -/
def lookupStat (k : StatKey) : List (StatKey × ℝ) → Option ℝ
  | [] => none
  | (k2, v) :: rest => if k = k2 then some v else lookupStat k rest

/-- Squared distance of an FFT pixel coordinate `(row, col)` from the spectrum
center `(h // 2, w // 2)` (src/core/lattice.py lines 17-18 and 28).  The
distances of the source are the square roots of these integers, so its filter
`distances > 0` (line 29) is exactly the filter `sqDistToCenter ≠ 0`. -/
def sqDistToCenter (h w : ℕ) (c : ℕ × ℕ) : ℤ :=
  ((c.1 : ℤ) - ((h / 2 : ℕ) : ℤ)) ^ 2 + ((c.2 : ℤ) - ((w / 2 : ℕ) : ℤ)) ^ 2

/-- Embedding of `_estimate_separation_from_fft` (src/core/lattice.py lines
11-38) from the point where the selected peak coordinates are known.  The
Fourier magnitude computation, the DC-disk suppression and the
`np.argpartition` top-`num_peaks` selection (lines 15-27, numpy library
internals) are treated as the external producer of `coords`, the list of
selected peak pixel coordinates `(row, col)`.  From there the source is
embedded directly: distances to the center are computed and zero distances
dropped (line 29); if none remain, `None` is returned (lines 30-31);
otherwise for each remaining distance `d` the two candidate periods `h / d`
and `w / d` are collected (lines 34-37) and their `np.mean` is returned
(line 38). -/
noncomputable def estimate_separation_from_fft_peaks (h w : ℕ)
    (coords : List (ℕ × ℕ)) : Option ℝ :=
  let nz := coords.filter (fun c => decide (sqDistToCenter h w c ≠ 0))
  if nz = [] then none
  else
    let periods := nz.flatMap (fun c =>
      [(h : ℝ) / Real.sqrt ((sqDistToCenter h w c : ℤ) : ℝ),
       (w : ℝ) / Real.sqrt ((sqDistToCenter h w c : ℤ) : ℝ)])
    some (periods.sum / (periods.length : ℝ))

/-- The failure raised by the separation-resolution step of `run_pipeline`
(src/core/pipeline.py lines 77-78): the `ValueError` asking the caller to
provide an explicit separation. -/
inductive SeparationError
  | estimationFailedOrNonPositive

/-- Embedding of the separation-resolution step of `run_pipeline`
(src/core/pipeline.py lines 74-78): take the supplied separation if present,
otherwise the FFT estimate; raise (`.error`) when the result is absent or
non-positive, and continue with it (`.ok`) otherwise. -/
noncomputable def pipeline_resolve_separation (separation : Option ℝ) (h w : ℕ)
    (coords : List (ℕ × ℕ)) : Except SeparationError ℝ :=
  let sep := match separation with
    | some s => some s
    | none => estimate_separation_from_fft_peaks h w coords
  match sep with
  | none => Except.error SeparationError.estimationFailedOrNonPositive
  | some s =>
    if s ≤ 0 then Except.error SeparationError.estimationFailedOrNonPositive
    else Except.ok s

/-- Embedding of the B-sublattice refinement block of `build_sublattices`
(src/core/lattice.py lines 98-104).  The two atomap refiners (external
collaborators that mutate the sublattice in place) are modelled as functions
from the sublattice state to `Except`: `.ok` is the refined state, `.error` a
raised internal error, assumed to leave the state unchanged.  The `try` block
runs center-of-mass then 2D-Gaussian refinement; on any exception the
`except` handler re-runs center-of-mass refinement on the current state, and
only an error of that fallback run propagates to the caller. -/
def refine_b_block {S E : Type} (refineCOM refineGauss : S → Except E S)
    (s : S) : Except E S :=
  match refineCOM s with
  | Except.error _ => refineCOM s
  | Except.ok s1 =>
    match refineGauss s1 with
    | Except.ok s2 => Except.ok s2
    | Except.error _ => refineCOM s1

theorem nearestInAux_mem (p q0 : Point) (l : List Point) :
    nearestInAux p q0 l ∈ q0 :: l := by
  induction l generalizing q0 with
  | nil => simp [nearestInAux]
  | cons q rest ih =>
    by_cases h : dist2 p q < dist2 p q0
    · have := ih q
      simp only [nearestInAux, if_pos h]
      rcases List.mem_cons.mp this with h1 | h1
      · exact List.mem_cons.mpr (Or.inr (by simp [h1]))
      · exact List.mem_cons.mpr (Or.inr (by simp [h1]))
    · have := ih q0
      simp only [nearestInAux, if_neg h]
      rcases List.mem_cons.mp this with h1 | h1
      · exact List.mem_cons.mpr (Or.inl h1)
      · exact List.mem_cons.mpr (Or.inr (by simp [h1]))

theorem nearestInAux_le (p q0 : Point) (l : List Point) :
    ∀ q ∈ q0 :: l, dist2 p (nearestInAux p q0 l) ≤ dist2 p q := by
  induction l generalizing q0 with
  | nil =>
    intro q hq
    rcases List.mem_cons.mp hq with h | h
    · rw [h]; simp [nearestInAux]
    · simp at h
  | cons a rest ih =>
    intro q hq
    by_cases h : dist2 p a < dist2 p q0
    · simp only [nearestInAux, if_pos h]
      rcases List.mem_cons.mp hq with h1 | h1
      · rw [h1]
        exact le_trans (ih a a (List.mem_cons_self a rest)) (le_of_lt h)
      · exact ih a q h1
    · simp only [nearestInAux, if_neg h]
      rcases List.mem_cons.mp hq with h1 | h1
      · rw [h1]
        exact ih q0 q0 (List.mem_cons_self q0 rest)
      · rcases List.mem_cons.mp h1 with h2 | h2
        · rw [h2]
          exact le_trans (ih q0 q0 (List.mem_cons_self q0 rest)) (le_of_not_lt h)
        · exact ih q0 q (List.mem_cons.mpr (Or.inr h2))

/-- C1: for a non-empty ideal point set, `compute_b_displacements` matches each
refined point to a true nearest neighbour among the ideal points (its distance
is at most the distance to every ideal point), and returns `dx`/`dy` arrays
aligned with the refined order, whose entries are componentwise differences
`refined[i] - matched[i]`. -/
theorem C1_displacement_true_nearest (refined ideal : List Point)
    (hI : ideal ≠ []) :
    ∃ dxs dys, compute_b_displacements refined ideal = some (dxs, dys) ∧
      dxs.length = refined.length ∧ dys.length = refined.length ∧
      ∀ i, i < refined.length →
        ∃ r m, refined[i]? = some r ∧ m ∈ ideal ∧
          (∀ q ∈ ideal, dist2 r m ≤ dist2 r q) ∧
          dxs[i]? = some (r.1 - m.1) ∧ dys[i]? = some (r.2 - m.2) := by
  match ideal, hI with
  | i0 :: irest, _ =>
    refine ⟨_, _, rfl, by simp, by simp, ?_⟩
    intro i hi
    have hr : refined[i]? = some refined[i] := List.getElem?_eq_getElem hi
    refine ⟨refined[i], nearestInAux refined[i] i0 irest, hr,
      nearestInAux_mem _ _ _, nearestInAux_le _ _ _, ?_, ?_⟩
    · simp [List.getElem?_map, hr]
    · simp [List.getElem?_map, hr]

theorem C1_displacement_true_nearest_witness :
    (([((0 : ℚ), (0 : ℚ)), ((10 : ℚ), (0 : ℚ))] : List Point) ≠ []) ∧
    (∃ dxs dys,
      compute_b_displacements [((1 : ℚ), (1 : ℚ))]
          [((0 : ℚ), (0 : ℚ)), ((10 : ℚ), (0 : ℚ))] = some (dxs, dys) ∧
      dxs.length = 1 ∧ dys.length = 1 ∧
      ∀ i, i < 1 →
        ∃ r m, ([((1 : ℚ), (1 : ℚ))] : List Point)[i]? = some r ∧
          m ∈ ([((0 : ℚ), (0 : ℚ)), ((10 : ℚ), (0 : ℚ))] : List Point) ∧
          (∀ q ∈ ([((0 : ℚ), (0 : ℚ)), ((10 : ℚ), (0 : ℚ))] : List Point),
            dist2 r m ≤ dist2 r q) ∧
          dxs[i]? = some (r.1 - m.1) ∧ dys[i]? = some (r.2 - m.2)) :=
  ⟨by decide,
    C1_displacement_true_nearest [((1 : ℚ), (1 : ℚ))]
      [((0 : ℚ), (0 : ℚ)), ((10 : ℚ), (0 : ℚ))] (by decide)⟩
theorem List_getD_map_of_lt {α β : Type} (f : α → β) (l : List α) (i : ℕ) (d : β) (d0 : α)
    (h : i < l.length) : (l.map f).getD i d = f (l.getD i d0) := by
  rw [List.getD_eq_getElem?_getD, List.getElem?_map, List.getD_eq_getElem?_getD,
    List.getElem?_eq_getElem h]
  simp

theorem linspace_length (a b : ℚ) (n : ℕ) : (linspace a b n).length = n := by
  simp [linspace]

theorem linspace_getD (a b : ℚ) (n i : ℕ) (h : i < n) (d : ℚ) :
    (linspace a b n).getD i d = a + (b - a) * (i : ℚ) / ((n : ℚ) - 1) := by
  unfold linspace
  rw [List_getD_map_of_lt (fun (j : ℕ) => a + (b - a) * (j : ℚ) / ((n : ℚ) - 1))
    (List.range n) i d 0 (by simpa using h)]
  rw [List.getD_eq_getElem?_getD, List.getElem?_range h]
  simp

theorem shrinkToward_zero (c v : Point) : shrinkToward c 0 v = v := by
  unfold shrinkToward
  have h1 : c.1 + (1 - 0) * (v.1 - c.1) = v.1 := by ring
  have h2 : c.2 + (1 - 0) * (v.2 - c.2) = v.2 := by ring
  rw [h1, h2]

theorem shrinkToward_spec_formula (c : Point) (m : ℚ) (v : Point) :
    shrinkToward c m v = (v.1 - m * (v.1 - c.1), v.2 - m * (v.2 - c.2)) := by
  unfold shrinkToward
  have h1 : c.1 + (1 - m) * (v.1 - c.1) = v.1 - m * (v.1 - c.1) := by ring
  have h2 : c.2 + (1 - m) * (v.2 - c.2) = v.2 - m * (v.2 - c.2) := by ring
  rw [h1, h2]

theorem create_convex_hull_mask_eq (points : List Point) (rows cols : ℕ)
    (x_min x_max y_min y_max : ℚ) (m : ℚ) (hull : List Point)
    (hm : 0 ≤ m) (h4 : 4 ≤ points.length) (hh : convexHullVerts points = some hull) :
    create_convex_hull_mask points rows cols x_min x_max y_min y_max m =
      (linspace y_min y_max rows).map (fun y =>
        (linspace x_min x_max cols).map (fun x =>
          insideConvexPoly (hull.map (shrinkToward (centroidPt hull) m)) (x, y))) := by
  unfold create_convex_hull_mask
  rw [if_neg (by omega), hh]
  dsimp only
  rcases lt_or_eq_of_le hm with hm1 | hm1
  · simp only [if_pos hm1]
  · rw [← hm1]
    have hid : List.map (shrinkToward (centroidPt hull) 0) hull = hull := by
      rw [show List.map (shrinkToward (centroidPt hull) 0) hull = List.map id hull from
        List.map_congr_left (fun v _ => shrinkToward_zero _ v), List.map_id]
    rw [if_neg (lt_irrefl 0), hid]

theorem convexHullVerts_square :
    convexHullVerts squarePts = some [(0, 0), (10, 0), (10, 10), (0, 10)] := by
  norm_num [convexHullVerts, sortPts, insertPt, ptLE, chainPush, cross, squarePts]

theorem centroid_square :
    centroidPt [((0 : ℚ), (0 : ℚ)), (10, 0), (10, 10), (0, 10)] = (5, 5) := by
  norm_num [centroidPt]

theorem shrunk_square (m : ℚ) :
    ([((0 : ℚ), (0 : ℚ)), (10, 0), (10, 10), (0, 10)] : List Point).map
        (shrinkToward (centroidPt [((0 : ℚ), (0 : ℚ)), (10, 0), (10, 10), (0, 10)]) m) =
      [(5 * m, 5 * m), (10 - 5 * m, 5 * m), (10 - 5 * m, 10 - 5 * m), (5 * m, 10 - 5 * m)] := by
  rw [centroid_square]
  simp only [List.map_cons, List.map_nil, shrinkToward, List.cons.injEq, Prod.mk.injEq,
    and_true]
  norm_num
  repeat' apply And.intro
  all_goals ring

theorem insideConvexPoly_quad (v0 v1 v2 v3 p : Point) :
    insideConvexPoly [v0, v1, v2, v3] p = true ↔
      (0 ≤ cross v0 v1 p ∧ 0 ≤ cross v1 v2 p ∧ 0 ≤ cross v2 v3 p ∧ 0 ≤ cross v3 v0 p) := by
  simp [insideConvexPoly, List.range_succ]

theorem insideConvexPoly_shrunk_square (m x y : ℚ) (hm1 : m < 1) :
    (insideConvexPoly
        [((5 * m : ℚ), (5 * m : ℚ)), (10 - 5 * m, 5 * m), (10 - 5 * m, 10 - 5 * m),
          (5 * m, 10 - 5 * m)] (x, y) = true)
      ↔ (5 * m ≤ x ∧ x ≤ 10 - 5 * m ∧ 5 * m ≤ y ∧ y ≤ 10 - 5 * m) := by
  have hpos : (0 : ℚ) < 10 - 10 * m := by linarith
  rw [insideConvexPoly_quad]
  rw [show cross ((5 * m : ℚ), (5 * m : ℚ)) (10 - 5 * m, 5 * m) (x, y)
      = (10 - 10 * m) * (y - 5 * m) from by unfold cross; ring]
  rw [show cross ((10 - 5 * m : ℚ), (5 * m : ℚ)) (10 - 5 * m, 10 - 5 * m) (x, y)
      = (10 - 10 * m) * (10 - 5 * m - x) from by unfold cross; ring]
  rw [show cross ((10 - 5 * m : ℚ), (10 - 5 * m : ℚ)) (5 * m, 10 - 5 * m) (x, y)
      = (10 - 10 * m) * (10 - 5 * m - y) from by unfold cross; ring]
  rw [show cross ((5 * m : ℚ), (10 - 5 * m : ℚ)) (5 * m, 5 * m) (x, y)
      = (10 - 10 * m) * (x - 5 * m) from by unfold cross; ring]
  constructor
  · rintro ⟨h0, h1, h2, h3⟩
    refine ⟨?_, ?_, ?_, ?_⟩ <;> nlinarith
  · rintro ⟨hx1, hx2, hy1, hy2⟩
    refine ⟨?_, ?_, ?_, ?_⟩ <;> nlinarith

theorem List_getD_getD_oob {α : Type} (l : List (List α)) (r c : ℕ) (d : α)
    (h : l.length ≤ r ∨ (l.getD r []).length ≤ c) : (l.getD r []).getD c d = d := by
  rcases h with h | h
  · rw [List.getD_eq_default _ _ h]
    simp [List.getD]
  · exact List.getD_eq_default _ _ h

theorem square_mask_entry (rows cols : ℕ) (x_min x_max y_min y_max m : ℚ) (r c : ℕ)
    (hm : 0 ≤ m) (hm1 : m < 1) (hr : r < rows) (hc : c < cols) :
    (((create_convex_hull_mask squarePts rows cols x_min x_max y_min y_max m).getD r
        []).getD c false = true)
      ↔ (5 * m ≤ x_min + (x_max - x_min) * (c : ℚ) / ((cols : ℚ) - 1) ∧
         x_min + (x_max - x_min) * (c : ℚ) / ((cols : ℚ) - 1) ≤ 10 - 5 * m ∧
         5 * m ≤ y_min + (y_max - y_min) * (r : ℚ) / ((rows : ℚ) - 1) ∧
         y_min + (y_max - y_min) * (r : ℚ) / ((rows : ℚ) - 1) ≤ 10 - 5 * m) := by
  rw [create_convex_hull_mask_eq squarePts rows cols x_min x_max y_min y_max m _ hm
    (by norm_num [squarePts]) convexHullVerts_square]
  rw [shrunk_square m]
  rw [List_getD_map_of_lt
    (fun y => (linspace x_min x_max cols).map (fun x => insideConvexPoly
      [(5 * m, 5 * m), (10 - 5 * m, 5 * m), (10 - 5 * m, 10 - 5 * m), (5 * m, 10 - 5 * m)]
      (x, y)))
    (linspace y_min y_max rows) r [] 0 (by rw [linspace_length]; exact hr)]
  rw [linspace_getD y_min y_max rows r hr 0]
  rw [List_getD_map_of_lt
    (fun x => insideConvexPoly
      [(5 * m, 5 * m), (10 - 5 * m, 5 * m), (10 - 5 * m, 10 - 5 * m), (5 * m, 10 - 5 * m)]
      (x, y_min + (y_max - y_min) * (r : ℚ) / ((rows : ℚ) - 1)))
    (linspace x_min x_max cols) c false 0 (by rw [linspace_length]; exact hc)]
  rw [linspace_getD x_min x_max cols c hc 0]
  rw [insideConvexPoly_shrunk_square m _ _ hm1]

theorem square_mask_entry_oob (rows cols : ℕ) (x_min x_max y_min y_max m : ℚ) (r c : ℕ)
    (hm : 0 ≤ m) (h : ¬(r < rows ∧ c < cols)) :
    ((create_convex_hull_mask squarePts rows cols x_min x_max y_min y_max m).getD r
        []).getD c false = false := by
  rw [create_convex_hull_mask_eq squarePts rows cols x_min x_max y_min y_max m _ hm
    (by norm_num [squarePts]) convexHullVerts_square]
  apply List_getD_getD_oob
  by_cases hr : r < rows
  · have hc : ¬ c < cols := fun hc => h ⟨hr, hc⟩
    right
    rw [List_getD_map_of_lt
      (fun y => (linspace x_min x_max cols).map (fun x => insideConvexPoly
        (([((0 : ℚ), (0 : ℚ)), (10, 0), (10, 10), (0, 10)] : List Point).map
          (shrinkToward (centroidPt [((0 : ℚ), (0 : ℚ)), (10, 0), (10, 10), (0, 10)]) m))
        (x, y)))
      (linspace y_min y_max rows) r [] 0 (by rw [linspace_length]; exact hr)]
    rw [List.length_map, linspace_length]
    exact le_of_not_lt hc
  · left
    rw [List.length_map, linspace_length]
    exact le_of_not_lt hr

/-- C3 (amended): the validity mask takes the convex hull of the source
points, moves each hull vertex toward the hull centroid by
`shrink_margin * (vertex - centroid)`, and marks a grid cell valid exactly
when the triangulation-based point-in-hull test places it inside the shrunk
hull; the shrink fraction defaults to 5% (`0.05`), and the heatmap caller
passes 10% explicitly. -/
theorem C3_hull_mask_shrink :
    shrink_margin_default = 5 / 100 ∧
    (∀ (c : Point) (m : ℚ) (v : Point),
      shrinkToward c m v = (v.1 - m * (v.1 - c.1), v.2 - m * (v.2 - c.2))) ∧
    (∀ (points : List Point) (rows cols : ℕ) (x_min x_max y_min y_max m : ℚ)
        (hull : List Point), 0 ≤ m → 4 ≤ points.length →
      convexHullVerts points = some hull →
      create_convex_hull_mask points rows cols x_min x_max y_min y_max m =
        (linspace y_min y_max rows).map (fun y =>
          (linspace x_min x_max cols).map (fun x =>
            insideConvexPoly
              (hull.map (fun v =>
                (v.1 - m * (v.1 - (centroidPt hull).1),
                 v.2 - m * (v.2 - (centroidPt hull).2))))
              (x, y)))) ∧
    (∀ (points : List Point) (w h : ℚ),
      heatmap_mask points w h = create_convex_hull_mask points 200 200 0 w 0 h (10 / 100)) := by
  refine ⟨rfl, shrinkToward_spec_formula, ?_, fun _ _ _ => rfl⟩
  intro points rows cols x_min x_max y_min y_max m hull hm h4 hh
  rw [create_convex_hull_mask_eq points rows cols x_min x_max y_min y_max m hull hm h4 hh]
  have hmap : hull.map (shrinkToward (centroidPt hull) m) =
      hull.map (fun v =>
        (v.1 - m * (v.1 - (centroidPt hull).1), v.2 - m * (v.2 - (centroidPt hull).2))) :=
    List.map_congr_left (fun v _ => shrinkToward_spec_formula _ m v)
  simp only [hmap]

/-- C3 counterexample: the default shrink fraction is `0.05`, not 10%; with
the default margin the grid cell at `(1/4, 1/4)` is valid for the square
point set, while a 10% shrink marks it invalid. -/
theorem C3_hull_mask_shrink_ce :
    shrink_margin_default ≠ 10 / 100 ∧
    create_convex_hull_mask squarePts 1 1 (1/4) (1/4) (1/4) (1/4) shrink_margin_default
      = [[true]] ∧
    create_convex_hull_mask squarePts 1 1 (1/4) (1/4) (1/4) (1/4) (10 / 100)
      = [[false]] := by
  refine ⟨by norm_num [shrink_margin_default], ?_, ?_⟩ <;>
    norm_num [create_convex_hull_mask, convexHullVerts, sortPts, insertPt, ptLE, chainPush,
      cross, shrink_margin_default, allTrueMask, linspace, insideConvexPoly, centroidPt,
      shrinkToward, List.range_succ, squarePts]

/-- Witness for C3: the mask characterization evaluated for the square point
set on a one-cell grid with margin `1/20`. -/
theorem C3_hull_mask_shrink_witness :
    ((0 : ℚ) ≤ 1 / 20) ∧ (4 ≤ squarePts.length) ∧
    (convexHullVerts squarePts = some [(0, 0), (10, 0), (10, 10), (0, 10)]) ∧
    create_convex_hull_mask squarePts 1 1 (1/4) (1/4) (1/4) (1/4) (1 / 20) =
      (linspace (1/4) (1/4) 1).map (fun y =>
        (linspace (1/4) (1/4) 1).map (fun x =>
          insideConvexPoly
            (([(0, 0), (10, 0), (10, 10), (0, 10)] : List Point).map (fun v =>
              (v.1 - (1 / 20) *
                (v.1 - (centroidPt ([(0, 0), (10, 0), (10, 10), (0, 10)] : List Point)).1),
               v.2 - (1 / 20) *
                (v.2 - (centroidPt ([(0, 0), (10, 0), (10, 10), (0, 10)] : List Point)).2))))
            (x, y))) :=
  ⟨by norm_num, by norm_num [squarePts], convexHullVerts_square,
    C3_hull_mask_shrink.2.2.1 squarePts 1 1 (1/4) (1/4) (1/4) (1/4) (1/20) _
      (by norm_num) (by norm_num [squarePts]) convexHullVerts_square⟩

/-- C7: for inputs with fewer than 4 source points, and for inputs whose
convex-hull construction fails (degenerate/collinear points), the mask
computation returns the permissive all-valid mask; the embedding is a total
function into masks, so no fatal error is raised. -/
theorem C7_mask_permissive_fallback (points : List Point) (rows cols : ℕ)
    (x_min x_max y_min y_max m : ℚ)
    (h : points.length < 4 ∨ convexHullVerts points = none) :
    create_convex_hull_mask points rows cols x_min x_max y_min y_max m =
      allTrueMask rows cols := by
  unfold create_convex_hull_mask
  rcases h with h | h
  · rw [if_pos h]
  · by_cases h4 : points.length < 4
    · rw [if_pos h4]
    · rw [if_neg h4, h]

/-- Witness for C7: five collinear points make the hull construction fail and
produce the all-valid 2×2 mask. -/
theorem C7_mask_permissive_fallback_witness :
    ((([((0:ℚ),(0:ℚ)), (1, 1), (2, 2), (3, 3), (4, 4)] : List Point).length < 4 ∨
      convexHullVerts [((0:ℚ),(0:ℚ)), (1, 1), (2, 2), (3, 3), (4, 4)] = none) ∧
     create_convex_hull_mask [((0:ℚ),(0:ℚ)), (1, 1), (2, 2), (3, 3), (4, 4)]
         2 2 0 1 0 1 (5/100) = allTrueMask 2 2) :=
  ⟨Or.inr (by norm_num [convexHullVerts, sortPts, insertPt, ptLE, chainPush, cross]),
   C7_mask_permissive_fallback _ 2 2 0 1 0 1 (5/100)
     (Or.inr (by norm_num [convexHullVerts, sortPts, insertPt, ptLE, chainPush, cross]))⟩

/-- C8 (amended): for the square point set `[(0,0),(10,0),(10,10),(0,10)]`,
the mask with `shrink_margin = 0` marks a grid cell valid exactly when its
grid point lies in the closed square `[0,10]²`, and the set of valid cells is
non-increasing as the shrink margin increases within `[0, 1)`. -/
theorem C8_square_mask_exact_and_monotone :
    (∀ (rows cols : ℕ) (x_min x_max y_min y_max : ℚ) (r c : ℕ), r < rows → c < cols →
      ((((create_convex_hull_mask squarePts rows cols x_min x_max y_min y_max 0).getD r
          []).getD c false = true) ↔
        (0 ≤ x_min + (x_max - x_min) * (c : ℚ) / ((cols : ℚ) - 1) ∧
         x_min + (x_max - x_min) * (c : ℚ) / ((cols : ℚ) - 1) ≤ 10 ∧
         0 ≤ y_min + (y_max - y_min) * (r : ℚ) / ((rows : ℚ) - 1) ∧
         y_min + (y_max - y_min) * (r : ℚ) / ((rows : ℚ) - 1) ≤ 10))) ∧
    (∀ (m m1 : ℚ), 0 ≤ m → m ≤ m1 → m1 < 1 →
      ∀ (rows cols : ℕ) (x_min x_max y_min y_max : ℚ) (r c : ℕ),
        (((create_convex_hull_mask squarePts rows cols x_min x_max y_min y_max m1).getD r
            []).getD c false = true) →
        (((create_convex_hull_mask squarePts rows cols x_min x_max y_min y_max m).getD r
            []).getD c false = true)) := by
  constructor
  · intro rows cols x_min x_max y_min y_max r c hr hc
    have h := square_mask_entry rows cols x_min x_max y_min y_max 0 r c le_rfl
      (by norm_num) hr hc
    simpa using h
  · intro m m1 hm hmm1 hm1 rows cols x_min x_max y_min y_max r c hentry
    by_cases hrc : r < rows ∧ c < cols
    · obtain ⟨hr, hc⟩ := hrc
      rw [square_mask_entry rows cols x_min x_max y_min y_max m1 r c
        (le_trans hm hmm1) hm1 hr hc] at hentry
      rw [square_mask_entry rows cols x_min x_max y_min y_max m r c hm
        (lt_of_le_of_lt hmm1 hm1) hr hc]
      obtain ⟨h1, h2, h3, h4⟩ := hentry
      refine ⟨by linarith, by linarith, by linarith, by linarith⟩
    · rw [square_mask_entry_oob rows cols x_min x_max y_min y_max m1 r c
        (le_trans hm hmm1) hrc] at hentry
      exact absurd hentry (by simp)

/-- C8 counterexample: at shrink margin 1 the shrunk hull degenerates to the
centroid and the permissive fallback marks every cell valid, so increasing
the margin from 0 to 1 enlarges the valid set: the single grid cell at
`(-5, -5)` is invalid at margin 0 but valid at margin 1. -/
theorem C8_square_mask_exact_and_monotone_ce :
    ((0 : ℚ) ≤ 0) ∧ ((0 : ℚ) ≤ 1) ∧
    (((create_convex_hull_mask squarePts 1 1 (-5) (-5) (-5) (-5) 1).getD 0 []).getD 0 false
      = true) ∧
    (((create_convex_hull_mask squarePts 1 1 (-5) (-5) (-5) (-5) 0).getD 0 []).getD 0 false
      = false) := by
  refine ⟨le_rfl, by norm_num, ?_, ?_⟩ <;>
    norm_num [create_convex_hull_mask, convexHullVerts, sortPts, insertPt, ptLE, chainPush,
      cross, allTrueMask, linspace, insideConvexPoly, centroidPt, shrinkToward,
      List.range_succ, squarePts, List.getD]

/-- Witness for C8: the exactness part evaluated on a one-cell grid at
`(3, 3)`, and the monotonicity part at margins `0 ≤ 1/2` on a one-cell grid
at `(5, 5)`. -/
theorem C8_square_mask_exact_and_monotone_witness :
    (0 < 1 ∧ 0 < 1 ∧
      ((((create_convex_hull_mask squarePts 1 1 3 3 3 3 0).getD 0 []).getD 0 false = true) ↔
        (0 ≤ (3 : ℚ) + (3 - 3) * ((0 : ℕ) : ℚ) / (((1 : ℕ) : ℚ) - 1) ∧
         (3 : ℚ) + (3 - 3) * ((0 : ℕ) : ℚ) / (((1 : ℕ) : ℚ) - 1) ≤ 10 ∧
         0 ≤ (3 : ℚ) + (3 - 3) * ((0 : ℕ) : ℚ) / (((1 : ℕ) : ℚ) - 1) ∧
         (3 : ℚ) + (3 - 3) * ((0 : ℕ) : ℚ) / (((1 : ℕ) : ℚ) - 1) ≤ 10))) ∧
    (((0 : ℚ) ≤ 0) ∧ ((0 : ℚ) ≤ 1/2) ∧ ((1/2 : ℚ) < 1) ∧
      (((create_convex_hull_mask squarePts 1 1 5 5 5 5 (1/2)).getD 0 []).getD 0 false = true) ∧
      (((create_convex_hull_mask squarePts 1 1 5 5 5 5 0).getD 0 []).getD 0 false = true)) := by
  have hhalf : ((create_convex_hull_mask squarePts 1 1 5 5 5 5 (1/2)).getD 0 []).getD 0 false
      = true := by
    norm_num [create_convex_hull_mask, convexHullVerts, sortPts, insertPt, ptLE, chainPush,
      cross, allTrueMask, linspace, insideConvexPoly, centroidPt, shrinkToward,
      List.range_succ, squarePts, List.getD]
  refine ⟨⟨Nat.one_pos, Nat.one_pos,
    C8_square_mask_exact_and_monotone.1 1 1 3 3 3 3 0 0 Nat.one_pos Nat.one_pos⟩,
    le_rfl, by norm_num, by norm_num, hhalf,
    C8_square_mask_exact_and_monotone.2 0 (1/2) le_rfl (by norm_num) (by norm_num)
      1 1 5 5 5 5 0 0 hhalf⟩

/-- C2 (amended): the strain computation returns a dict with exactly the keys
`exx, eyy, exy, rotation, rotation_deg, grid_x, grid_y, u_grid, v_grid,
source_points`, in this order; it contains no validity mask — the mask is
computed downstream (by `save_strain_maps` via `create_convex_hull_mask`)
from the `source_points` entry, which is present. -/
theorem C2_strain_dict_keys (points : List Point) (u_grid v_grid : Grid) (h w : ℚ)
    (grid_size : ℕ) :
    (compute_strain_from_displacement points u_grid v_grid h w grid_size).map Prod.fst =
      [StrainKey.exx, StrainKey.eyy, StrainKey.exy, StrainKey.rotation,
       StrainKey.rotation_deg, StrainKey.grid_x, StrainKey.grid_y,
       StrainKey.u_grid, StrainKey.v_grid, StrainKey.source_points] ∧
    lookupStrain StrainKey.mask
      (compute_strain_from_displacement points u_grid v_grid h w grid_size) = none ∧
    lookupStrain StrainKey.source_points
      (compute_strain_from_displacement points u_grid v_grid h w grid_size) =
        some (StrainVal.pts points) :=
  ⟨rfl, rfl, rfl⟩

/-- C2 counterexample: at a concrete input the returned dict has exactly the
ten listed keys and no validity-mask entry. -/
theorem C2_strain_dict_keys_ce :
    (compute_strain_from_displacement [] [] [] 1 1 200).map Prod.fst =
      [StrainKey.exx, StrainKey.eyy, StrainKey.exy, StrainKey.rotation,
       StrainKey.rotation_deg, StrainKey.grid_x, StrainKey.grid_y,
       StrainKey.u_grid, StrainKey.v_grid, StrainKey.source_points] ∧
    lookupStrain StrainKey.mask (compute_strain_from_displacement [] [] [] 1 1 200) = none :=
  ⟨rfl, rfl⟩

/-- C5 (amended): the strain grid spans `[-0.01*w, 1.01*w]` with 200 samples
(first sample `-0.01*w`, last `1.01*w`), its actual uniform spacing is
`1.02*w/199`, while the spacing handed to `np.gradient` is the nominal
`w/(grid_size-1) = w/199` — smaller than the actual grid spacing by the
factor `100/102`; the `exx`/`eyy` entries of the strain dict are exactly the
gradients computed with those nominal spacings. -/
theorem C5_strain_grid_and_spacing :
    (∀ w : ℚ,
      (strain_grid_xs w 200).length = 200 ∧
      (strain_grid_xs w 200).getD 0 0 = -(1 / 100) * w ∧
      (strain_grid_xs w 200).getD 199 0 = (101 / 100) * w ∧
      (∀ i : ℕ, i + 1 < 200 →
        (strain_grid_xs w 200).getD (i + 1) 0 - (strain_grid_xs w 200).getD i 0 =
          (102 / 100) * w / 199) ∧
      dx_spacing w 200 = w / 199 ∧
      dx_spacing w 200 = (100 / 102) * ((102 / 100) * w / 199)) ∧
    (∀ h : ℚ, dy_spacing h 200 = h / 199) ∧
    (∀ (points : List Point) (u_grid v_grid : Grid) (h w : ℚ) (grid_size : ℕ),
      lookupStrain StrainKey.exx
          (compute_strain_from_displacement points u_grid v_grid h w grid_size) =
        some (StrainVal.qgrid (gradAxis0 (dx_spacing w grid_size) u_grid)) ∧
      lookupStrain StrainKey.eyy
          (compute_strain_from_displacement points u_grid v_grid h w grid_size) =
        some (StrainVal.qgrid (gradAxis1 (dy_spacing h grid_size) v_grid)) ∧
      lookupStrain StrainKey.grid_x
          (compute_strain_from_displacement points u_grid v_grid h w grid_size) =
        some (StrainVal.qgrid (strain_grid_x w grid_size))) := by
  refine ⟨?_, ?_, fun _ _ _ _ _ _ => ⟨rfl, rfl, rfl⟩⟩
  · intro w
    refine ⟨linspace_length _ _ _, ?_, ?_, ?_, ?_, ?_⟩
    · rw [strain_grid_xs, linspace_getD _ _ 200 0 (by norm_num) 0]
      norm_num [strain_margin_factor]
    · rw [strain_grid_xs, linspace_getD _ _ 200 199 (by norm_num) 0]
      norm_num [strain_margin_factor]
      ring
    · intro i hi
      rw [strain_grid_xs, linspace_getD _ _ 200 (i + 1) hi 0,
        linspace_getD _ _ 200 i (by omega) 0]
      push_cast
      norm_num [strain_margin_factor]
      ring
    · norm_num [dx_spacing]
    · norm_num [dx_spacing]
      ring
  · intro h
    norm_num [dy_spacing]

/-- C5 counterexample: for `w = 199` and the default 200-sample grid the
spacing used by the gradient is `1`, while the actual spacing of the
constructed grid is `102/100`. -/
theorem C5_strain_grid_and_spacing_ce :
    dx_spacing 199 200 = 1 ∧
    (strain_grid_xs 199 200).getD 1 0 - (strain_grid_xs 199 200).getD 0 0 = 102 / 100 ∧
    ((102 : ℚ) / 100 ≠ 1) := by
  refine ⟨by norm_num [dx_spacing], ?_, by norm_num⟩
  rw [strain_grid_xs, linspace_getD _ _ 200 1 (by norm_num) 0,
    linspace_getD _ _ 200 0 (by norm_num) 0]
  norm_num [strain_margin_factor]

/-- Witness for C5: the uniform-spacing statement evaluated at `w = 199`,
`i = 0`. -/
theorem C5_strain_grid_and_spacing_witness :
    ((0 : ℕ) + 1 < 200) ∧
    ((strain_grid_xs 199 200).getD (0 + 1) 0 - (strain_grid_xs 199 200).getD 0 0 =
      (102 / 100) * 199 / 199) :=
  ⟨by norm_num,
    (C5_strain_grid_and_spacing.1 199).2.2.2.1 0 (by norm_num)⟩

/-- C4 (amended): with a scale factor supplied, `compute_statistics` reports
the magnitude mean, std, min and max additionally in physical units by direct
multiplication with the factor, and keeps all pixel-unit entries; the median
is computed in pixels but has no physical-unit entry. -/
theorem C4_stats_physical_units (dx dy : List ℝ) (s : ℝ) :
    lookupStat StatKey.magnitude_mean_nm (compute_statistics dx dy (some s)) =
      (lookupStat StatKey.magnitude_mean (compute_statistics dx dy (some s))).map
        (fun v => v * s) ∧
    lookupStat StatKey.magnitude_std_nm (compute_statistics dx dy (some s)) =
      (lookupStat StatKey.magnitude_std (compute_statistics dx dy (some s))).map
        (fun v => v * s) ∧
    lookupStat StatKey.magnitude_min_nm (compute_statistics dx dy (some s)) =
      (lookupStat StatKey.magnitude_min (compute_statistics dx dy (some s))).map
        (fun v => v * s) ∧
    lookupStat StatKey.magnitude_max_nm (compute_statistics dx dy (some s)) =
      (lookupStat StatKey.magnitude_max (compute_statistics dx dy (some s))).map
        (fun v => v * s) ∧
    lookupStat StatKey.magnitude_median_nm (compute_statistics dx dy (some s)) = none ∧
    lookupStat StatKey.magnitude_median (compute_statistics dx dy (some s)) =
      some (npMedian (List.zipWith hypotR dx dy)) ∧
    lookupStat StatKey.magnitude_mean (compute_statistics dx dy (some s)) =
      some (npMean (List.zipWith hypotR dx dy)) ∧
    lookupStat StatKey.magnitude_std (compute_statistics dx dy (some s)) =
      some (npStd (List.zipWith hypotR dx dy)) ∧
    lookupStat StatKey.magnitude_min (compute_statistics dx dy (some s)) =
      some (npMinL (List.zipWith hypotR dx dy)) ∧
    lookupStat StatKey.magnitude_max (compute_statistics dx dy (some s)) =
      some (npMaxL (List.zipWith hypotR dx dy)) :=
  ⟨rfl, rfl, rfl, rfl, rfl, rfl, rfl, rfl, rfl, rfl⟩

/-- C4 counterexample: at a concrete input with a scale factor, the dict has
no `magnitude_median_nm` entry although the pixel median and the other
physical-unit entries are present. -/
theorem C4_stats_physical_units_ce :
    lookupStat StatKey.magnitude_median_nm (compute_statistics [3] [4] (some 2)) = none ∧
    (lookupStat StatKey.magnitude_median (compute_statistics [3] [4] (some 2))).isSome =
      true ∧
    (lookupStat StatKey.magnitude_mean_nm (compute_statistics [3] [4] (some 2))).isSome =
      true :=
  ⟨rfl, rfl, rfl⟩

theorem sum_flatMap_pair {α : Type} (l : List α) (f g : α → ℝ) :
    (l.flatMap (fun c => [f c, g c])).sum = (l.map (fun c => f c + g c)).sum := by
  induction l with
  | nil => simp
  | cons a rest ih =>
    rw [List.flatMap_cons, List.sum_append, List.map_cons, List.sum_cons, ih]
    simp [add_assoc]

theorem length_flatMap_pair {α : Type} (l : List α) (f g : α → ℝ) :
    (l.flatMap (fun c => [f c, g c])).length = 2 * l.length := by
  induction l with
  | nil => simp
  | cons a rest ih =>
    rw [List.flatMap_cons, List.length_append, ih]
    simp
    omega

/-- C6: if at least one selected FFT peak has nonzero distance from the
spectrum center, the estimator returns the arithmetic mean of all candidate
periods `h/d` and `w/d` over those peaks (written here as the sum of
`(h+w)/d` divided by twice the number of surviving peaks); if no such peak
remains, it returns the failure signal and the pipeline caller raises the
explicit-separation error, aborting that run. -/
theorem C6_fft_mean_or_failure (h w : ℕ) (coords : List (ℕ × ℕ)) :
    ((coords.filter (fun c => decide (sqDistToCenter h w c ≠ 0)) ≠ []) →
      estimate_separation_from_fft_peaks h w coords =
        some (((coords.filter (fun c => decide (sqDistToCenter h w c ≠ 0))).map
            (fun c => ((h : ℝ) + (w : ℝ)) /
              Real.sqrt ((sqDistToCenter h w c : ℤ) : ℝ))).sum /
          (2 * (coords.filter (fun c => decide (sqDistToCenter h w c ≠ 0))).length : ℝ))) ∧
    ((coords.filter (fun c => decide (sqDistToCenter h w c ≠ 0)) = []) →
      estimate_separation_from_fft_peaks h w coords = none ∧
      pipeline_resolve_separation none h w coords =
        Except.error SeparationError.estimationFailedOrNonPositive) := by
  constructor
  · intro hnz
    unfold estimate_separation_from_fft_peaks
    rw [if_neg hnz]
    dsimp only
    congr 1
    rw [sum_flatMap_pair, length_flatMap_pair]
    have hmap : (coords.filter (fun c => decide (sqDistToCenter h w c ≠ 0))).map
          (fun c => (h : ℝ) / Real.sqrt ((sqDistToCenter h w c : ℤ) : ℝ) +
            (w : ℝ) / Real.sqrt ((sqDistToCenter h w c : ℤ) : ℝ)) =
        (coords.filter (fun c => decide (sqDistToCenter h w c ≠ 0))).map
          (fun c => ((h : ℝ) + (w : ℝ)) / Real.sqrt ((sqDistToCenter h w c : ℤ) : ℝ)) :=
      List.map_congr_left (fun c _ => div_add_div_same _ _ _)
    rw [hmap]
    push_cast
    ring
  · intro hnz
    have hest : estimate_separation_from_fft_peaks h w coords = none := by
      unfold estimate_separation_from_fft_peaks
      rw [if_pos hnz]
    refine ⟨hest, ?_⟩
    unfold pipeline_resolve_separation
    rw [hest]

/-- Witness for C6: a single peak at distance 1 from the center of a 4×4
spectrum. -/
theorem C6_fft_mean_or_failure_witness :
    (([((2 : ℕ), (3 : ℕ))] : List (ℕ × ℕ)).filter
        (fun c => decide (sqDistToCenter 4 4 c ≠ 0)) ≠ []) ∧
    estimate_separation_from_fft_peaks 4 4 [((2 : ℕ), (3 : ℕ))] =
      some (((([((2 : ℕ), (3 : ℕ))] : List (ℕ × ℕ)).filter
          (fun c => decide (sqDistToCenter 4 4 c ≠ 0))).map
            (fun c => (((4 : ℕ) : ℝ) + ((4 : ℕ) : ℝ)) /
              Real.sqrt ((sqDistToCenter 4 4 c : ℤ) : ℝ))).sum /
        (2 * (([((2 : ℕ), (3 : ℕ))] : List (ℕ × ℕ)).filter
          (fun c => decide (sqDistToCenter 4 4 c ≠ 0))).length : ℝ)) :=
  ⟨by decide, (C6_fft_mean_or_failure 4 4 [(2, 3)]).1 (by decide)⟩

/-- C10: whenever the FFT separation estimator returns a value for an image
with positive dimensions, that value is strictly positive, and the pipeline
caller's rejection branch for a non-positive estimate is not taken: the run
continues with the estimated value. -/
theorem C10_estimate_positive (h w : ℕ) (coords : List (ℕ × ℕ)) (v : ℝ)
    (hh : 0 < h) (hw : 0 < w)
    (hest : estimate_separation_from_fft_peaks h w coords = some v) :
    0 < v ∧ pipeline_resolve_separation none h w coords = Except.ok v := by
  have hv : 0 < v := by
    unfold estimate_separation_from_fft_peaks at hest
    by_cases hnz : coords.filter (fun c => decide (sqDistToCenter h w c ≠ 0)) = []
    · rw [if_pos hnz] at hest
      exact absurd hest (by simp)
    · rw [if_neg hnz] at hest
      dsimp only at hest
      have hv2 := Option.some.inj hest
      rw [← hv2]
      have hper : ∀ p ∈ (coords.filter
          (fun c => decide (sqDistToCenter h w c ≠ 0))).flatMap (fun c =>
            [(h : ℝ) / Real.sqrt ((sqDistToCenter h w c : ℤ) : ℝ),
             (w : ℝ) / Real.sqrt ((sqDistToCenter h w c : ℤ) : ℝ)]), 0 < p := by
        intro p hp
        obtain ⟨c, hc, hpc⟩ := List.mem_flatMap.mp hp
        have hne : sqDistToCenter h w c ≠ 0 := by
          have := List.of_mem_filter hc
          simpa using this
        have hnonneg : (0 : ℤ) ≤ sqDistToCenter h w c :=
          add_nonneg (sq_nonneg _) (sq_nonneg _)
        have hposd : (0 : ℝ) < ((sqDistToCenter h w c : ℤ) : ℝ) := by
          have : (0 : ℤ) < sqDistToCenter h w c := lt_of_le_of_ne hnonneg (Ne.symm hne)
          exact_mod_cast this
        have hsq : 0 < Real.sqrt ((sqDistToCenter h w c : ℤ) : ℝ) :=
          Real.sqrt_pos.mpr hposd
        rcases List.mem_cons.mp hpc with hpc1 | hpc1
        · rw [hpc1]
          exact div_pos (by exact_mod_cast hh) hsq
        · rcases List.mem_cons.mp hpc1 with hpc2 | hpc2
          · rw [hpc2]
            exact div_pos (by exact_mod_cast hw) hsq
          · simp at hpc2
      have hne2 : (coords.filter (fun c => decide (sqDistToCenter h w c ≠ 0))).flatMap
          (fun c =>
            [(h : ℝ) / Real.sqrt ((sqDistToCenter h w c : ℤ) : ℝ),
             (w : ℝ) / Real.sqrt ((sqDistToCenter h w c : ℤ) : ℝ)]) ≠ [] := by
        intro hcontra
        rcases List.exists_mem_of_ne_nil _ hnz with ⟨c, hc⟩
        have : ((h : ℝ) / Real.sqrt ((sqDistToCenter h w c : ℤ) : ℝ)) ∈
            (coords.filter (fun c => decide (sqDistToCenter h w c ≠ 0))).flatMap
              (fun c =>
                [(h : ℝ) / Real.sqrt ((sqDistToCenter h w c : ℤ) : ℝ),
                 (w : ℝ) / Real.sqrt ((sqDistToCenter h w c : ℤ) : ℝ)]) :=
          List.mem_flatMap.mpr ⟨c, hc, by simp⟩
        rw [hcontra] at this
        simp at this
      have hsum : 0 < ((coords.filter (fun c => decide (sqDistToCenter h w c ≠ 0))).flatMap
          (fun c =>
            [(h : ℝ) / Real.sqrt ((sqDistToCenter h w c : ℤ) : ℝ),
             (w : ℝ) / Real.sqrt ((sqDistToCenter h w c : ℤ) : ℝ)])).sum :=
        List.sum_pos _ hper hne2
      have hlen : (0 : ℝ) < (((coords.filter
          (fun c => decide (sqDistToCenter h w c ≠ 0))).flatMap
          (fun c =>
            [(h : ℝ) / Real.sqrt ((sqDistToCenter h w c : ℤ) : ℝ),
             (w : ℝ) / Real.sqrt ((sqDistToCenter h w c : ℤ) : ℝ)])).length : ℝ) := by
        have := List.length_pos.mpr hne2
        exact_mod_cast this
      exact div_pos hsum hlen
  refine ⟨hv, ?_⟩
  unfold pipeline_resolve_separation
  rw [hest]
  dsimp only
  rw [if_neg (not_le.mpr hv)]

/-- Witness for C10: the estimate for a single peak at distance 1 from the
center of a 4×4 spectrum is 4, positive, and accepted by the caller. -/
theorem C10_estimate_positive_witness :
    (0 < 4) ∧
    estimate_separation_from_fft_peaks 4 4 [((2 : ℕ), (3 : ℕ))] = some 4 ∧
    (0 : ℝ) < 4 ∧
    pipeline_resolve_separation none 4 4 [((2 : ℕ), (3 : ℕ))] = Except.ok 4 := by
  have hest : estimate_separation_from_fft_peaks 4 4 [((2 : ℕ), (3 : ℕ))] = some 4 := by
    unfold estimate_separation_from_fft_peaks
    rw [if_neg (by decide)]
    dsimp only
    have hsq : sqDistToCenter 4 4 ((2 : ℕ), (3 : ℕ)) = 1 := by decide
    norm_num [List.flatMap_cons, hsq, Real.sqrt_one]
  exact ⟨by norm_num, hest,
    (C10_estimate_positive 4 4 [(2, 3)] 4 (by norm_num) (by norm_num) hest).1,
    (C10_estimate_positive 4 4 [(2, 3)] 4 (by norm_num) (by norm_num) hest).2⟩

/-- C9: when the 2D-Gaussian refinement step fails after a successful
center-of-mass pass, the builder re-runs center-of-mass refinement and the
Gaussian failure is not raised to the caller; an error escapes only when that
fallback run itself fails. -/
theorem C9_gaussian_fallback {S E : Type} (refineCOM refineGauss : S → Except E S)
    (s s1 : S) (e : E) (hcom : refineCOM s = Except.ok s1)
    (hgauss : refineGauss s1 = Except.error e) :
    refine_b_block refineCOM refineGauss s = refineCOM s1 ∧
    (∀ s2, refineCOM s1 = Except.ok s2 →
      refine_b_block refineCOM refineGauss s = Except.ok s2) ∧
    (∀ e2, refine_b_block refineCOM refineGauss s = Except.error e2 →
      refineCOM s1 = Except.error e2) := by
  have hb : refine_b_block refineCOM refineGauss s = refineCOM s1 := by
    unfold refine_b_block
    rw [hcom]
    dsimp only
    rw [hgauss]
  exact ⟨hb, fun s2 h2 => by rw [hb, h2], fun e2 h2 => by rw [← hb]; exact h2⟩

/-- Witness for C9: a concrete state machine on `ℕ` whose Gaussian step
always fails; the block returns the fallback center-of-mass result. -/
theorem C9_gaussian_fallback_witness :
    ((fun n : ℕ => (Except.ok (n + 1) : Except ℕ ℕ)) 0 = Except.ok 1) ∧
    ((fun _ : ℕ => (Except.error 0 : Except ℕ ℕ)) 1 = Except.error 0) ∧
    refine_b_block (fun n : ℕ => (Except.ok (n + 1) : Except ℕ ℕ))
        (fun _ : ℕ => (Except.error 0 : Except ℕ ℕ)) 0 =
      (fun n : ℕ => (Except.ok (n + 1) : Except ℕ ℕ)) 1 :=
  ⟨rfl, rfl, (C9_gaussian_fallback (fun n : ℕ => (Except.ok (n + 1) : Except ℕ ℕ))
    (fun _ : ℕ => (Except.error 0 : Except ℕ ℕ)) 0 1 0 rfl rfl).1⟩
